import Mathlib

/-!
# Verification of the HunYuanDiT forward-pass architecture
  (shallow embedding of src/HunYuan/models/models.py)

Tensors are modelled as shape records with total index functions over `ℚ`
(exact rationals; the dtype casts `.half()`, `.float()`, `.to(dtype)` of the
source are precision coercions and are modelled as the identity).  Index
arithmetic of `reshape`/`view`/`repeat`/`cat`/slicing is translated
explicitly from the flat row-major layout that PyTorch uses.

Numeric kernels that the source imports from outside this file
(`Attention`, `CrossAttention`, `Mlp`, `TimestepEmbedder`, `PatchEmbed`,
`timestep_embedding`, `AttentionPool`, `RMSNorm`, `F.layer_norm`,
`F.silu`, `get_2d_rotary_pos_embed`, `get_fill_resize_and_crop`) are
modelled as abstract function-valued fields of the model/environment
records: the claims under study depend only on how this file composes
them, never on their numeric values.

The debug file I/O of the source (`open(...).write`, `torch.load`) is
modelled by an explicit association-list file store threaded through the
computation; serialized text content is modelled by storing the dumped
tensor itself.
-/

/-- A rank-1 tensor: shape `(n)` plus a total index function. -/
structure Tensor1 where
  n : ℕ
  data : ℕ → ℚ

/-- A rank-2 tensor: shape `(n, d)`. -/
structure Tensor2 where
  n : ℕ
  d : ℕ
  data : ℕ → ℕ → ℚ

/-- A rank-3 tensor: shape `(n, t, d)` (batch, tokens, features). -/
structure Tensor3 where
  n : ℕ
  t : ℕ
  d : ℕ
  data : ℕ → ℕ → ℕ → ℚ

/-- A rank-4 tensor: shape `(n, c, h, w)`. -/
structure Tensor4 where
  n : ℕ
  c : ℕ
  h : ℕ
  w : ℕ
  data : ℕ → ℕ → ℕ → ℕ → ℚ

/-- A rank-2 boolean tensor (result of `.bool()`). -/
structure TensorB2 where
  n : ℕ
  d : ℕ
  data : ℕ → ℕ → Bool

/-- `t.repeat(k)` on a rank-1 tensor: tile the batch dimension. -/
def rep1 (k : ℕ) (t : Tensor1) : Tensor1 :=
  ⟨k * t.n, fun i => t.data (i % t.n)⟩

/-- `t.repeat(k, 1)` on a rank-2 tensor. -/
def rep2 (k : ℕ) (t : Tensor2) : Tensor2 :=
  ⟨k * t.n, t.d, fun i j => t.data (i % t.n) j⟩

/-- `t.repeat(k, 1, 1)` on a rank-3 tensor. -/
def rep3 (k : ℕ) (t : Tensor3) : Tensor3 :=
  ⟨k * t.n, t.t, t.d, fun i l j => t.data (i % t.n) l j⟩

/-- `t.repeat(k, 1, 1, 1)` on a rank-4 tensor. -/
def rep4 (k : ℕ) (t : Tensor4) : Tensor4 :=
  ⟨k * t.n, t.c, t.h, t.w, fun i c h w => t.data (i % t.n) c h w⟩

/-- `torch.cat([a, b])` along dim 0 for rank-3 tensors. -/
def cat3d0 (a b : Tensor3) : Tensor3 :=
  ⟨a.n + b.n, a.t, a.d, fun i l j => if i < a.n then a.data i l j else b.data (i - a.n) l j⟩

/-- `torch.cat([a, b])` along dim 0 for rank-2 tensors. -/
def cat2d0 (a b : Tensor2) : Tensor2 :=
  ⟨a.n + b.n, a.d, fun i j => if i < a.n then a.data i j else b.data (i - a.n) j⟩

/-- `torch.cat([a, b], dim=1)` (token dimension) for rank-3 tensors. -/
def cat3d1 (a b : Tensor3) : Tensor3 :=
  ⟨a.n, a.t + b.t, a.d, fun i l j => if l < a.t then a.data i l j else b.data i (l - a.t) j⟩

/-- `torch.cat([a, b], dim=1)` (feature dimension) for rank-2 tensors. -/
def cat2d1 (a b : Tensor2) : Tensor2 :=
  ⟨a.n, a.d + b.d, fun i j => if j < a.d then a.data i j else b.data i (j - a.d)⟩

/-- `torch.cat([a, b], dim=-1)` (feature dimension) for rank-3 tensors. -/
def cat3last (a b : Tensor3) : Tensor3 :=
  ⟨a.n, a.t, a.d + b.d, fun i l j => if j < a.d then a.data i l j else b.data i l (j - a.d)⟩

/-- `torch.cat([a, b], dim=-1)` for rank-2 boolean tensors. -/
def catB2d1 (a b : TensorB2) : TensorB2 :=
  ⟨a.n, a.d + b.d, fun i j => if j < a.d then a.data i j else b.data i (j - a.d)⟩

/-- Elementwise addition of rank-3 tensors. -/
def add3 (a b : Tensor3) : Tensor3 :=
  ⟨a.n, a.t, a.d, fun i l j => a.data i l j + b.data i l j⟩

/-- Elementwise addition of rank-2 tensors. -/
def add2 (a b : Tensor2) : Tensor2 :=
  ⟨a.n, a.d, fun i j => a.data i j + b.data i j⟩

/-- `a + s.unsqueeze(1)`: broadcast a per-sample vector over the token dim. -/
def addSeq (a : Tensor3) (s : Tensor2) : Tensor3 :=
  ⟨a.n, a.t, a.d, fun i l j => a.data i l j + s.data i j⟩

/-- `t[:, 0]` on a rank-3 tensor. -/
def col0 (t : Tensor3) : Tensor2 :=
  ⟨t.n, t.d, fun i j => t.data i 0 j⟩

/-- `t[:, :k]`: keep the first `k` channels of a rank-4 tensor. -/
def chanSlice (k : ℕ) (t : Tensor4) : Tensor4 :=
  ⟨t.n, min k t.c, t.h, t.w, t.data⟩

/-- `t[:k]`: keep the first `k` batch rows of a rank-4 tensor. -/
def batchSlice (k : ℕ) (t : Tensor4) : Tensor4 :=
  ⟨min k t.n, t.c, t.h, t.w, t.data⟩

/-- `t.view(-1, d)` flattening batch and token dims of a rank-3 tensor. -/
def flatten3to2 (t : Tensor3) : Tensor2 :=
  ⟨t.n * t.t, t.d, fun r j => t.data (r / t.t) (r % t.t) j⟩

/-- `t.view(b, l, -1)` splitting the row dim of a rank-2 tensor. -/
def unflatten2to3 (b l : ℕ) (t : Tensor2) : Tensor3 :=
  ⟨b, l, t.d, fun i ll j => t.data (i * l + ll) j⟩

/-- `t.view(-1)` flattening a rank-2 tensor row-major. -/
def flatten2to1 (t : Tensor2) : Tensor1 :=
  ⟨t.n * t.d, fun k => t.data (k / t.d) (k % t.d)⟩

/-- `t.view(-1, g * cols)` regrouping `g` consecutive rows of a `(R, cols)`
tensor into one row of width `g * cols`. -/
def view2 (g cols : ℕ) (t : Tensor2) : Tensor2 :=
  ⟨t.n / g, g * cols, fun i j => t.data (i * g + j / cols) (j % cols)⟩

/-- `t.bool()`: nonzero entries become `true`. -/
def boolT2 (t : Tensor2) : TensorB2 :=
  ⟨t.n, t.d, fun i j => decide (t.data i j ≠ 0)⟩

/-- `torch.where(mask.unsqueeze(2), a, pad)` with a `(L, D)` padding tensor
broadcast over the batch. -/
def whereMask (m : TensorB2) (a : Tensor3) (pad : Tensor2) : Tensor3 :=
  ⟨a.n, a.t, a.d, fun i l j => if m.data i l then a.data i l j else pad.data l j⟩

/-- `torch.as_tensor([vals] * rows)`. -/
def constRows (rows : ℕ) (vals : List ℚ) : Tensor2 :=
  ⟨rows, vals.length, fun _ j => vals.getD j 0⟩

/-- An all-zero rank-1 tensor (`torch.as_tensor([0, 0] * batch)`). -/
def zeros1 (len : ℕ) : Tensor1 :=
  ⟨len, fun _ => 0⟩

/-- An all-zero rank-2 tensor. -/
def zeros2 (n d : ℕ) : Tensor2 :=
  ⟨n, d, fun _ _ => 0⟩

/-- `.to(torch.int)`: truncation toward zero of each rational entry. -/
def ratTrunc (q : ℚ) : ℚ := ((q.num / (q.den : ℤ) : ℤ) : ℚ)

/-- `.to(torch.int)` applied entrywise to a rank-2 tensor. -/
def toIntT2 (t : Tensor2) : Tensor2 :=
  ⟨t.n, t.d, fun i j => ratTrunc (t.data i j)⟩

/-- `modulate(x, shift, scale)` from models.py line 42:
`x * (1 + scale.unsqueeze(1)) + shift.unsqueeze(1)`. -/
def modulate (x : Tensor3) (shift scale : Tensor2) : Tensor3 :=
  ⟨x.n, x.t, x.d, fun i l j => x.data i l j * (1 + scale.data i j) + shift.data i j⟩

/-- C7: `modulate` is the elementwise affine map `x * (1 + scale) + shift` with
`shift`/`scale` broadcast over the sequence dimension (`unsqueeze` at dim 1),
and at zero conditioning (`shift = scale = 0`) it is the identity. -/
theorem modulate_affine_and_identity (x : Tensor3) (b h : ℕ) :
    (∀ shift scale : Tensor2, modulate x shift scale =
      ⟨x.n, x.t, x.d, fun i l j => x.data i l j * (1 + scale.data i j) + shift.data i j⟩)
    ∧ modulate x (zeros2 b h) (zeros2 b h) = x := by
  constructor
  · intro shift scale
    rfl
  · cases x with
    | mk n t d f =>
      simp only [modulate, zeros2]
      congr 1
      funext i l j
      ring

/-- `Resolution` from models.py line 13: an immutable `(width, height)` pair. -/
structure Resolution where
  width : ℕ
  height : ℕ

/-- `Resolution.__str__`: the string `f'{height}x{width}'`. -/
def Resolution.str (r : Resolution) : String :=
  Nat.repr r.height ++ "x" ++ Nat.repr r.width

/-- `ResolutionGroup().data` from models.py lines 24-36: the eleven
supported aspect-ratio buckets, in source order. -/
def resolutionGroupData : List Resolution :=
  [⟨768, 768⟩, ⟨1024, 1024⟩, ⟨1280, 1280⟩,
   ⟨1024, 768⟩, ⟨1152, 864⟩, ⟨1280, 960⟩,
   ⟨768, 1024⟩, ⟨864, 1152⟩, ⟨960, 1280⟩,
   ⟨1280, 768⟩, ⟨768, 1280⟩]

/-- `ResolutionGroup().supported_sizes`: the `(width, height)` pairs of the
buckets (the Python `set` is modelled by list membership). -/
def supportedSizes : List (ℕ × ℕ) :=
  resolutionGroupData.map (fun r => (r.width, r.height))

/-- `ResolutionGroup.is_valid(width, height)` from models.py line 39. -/
def isValid (w h : ℕ) : Bool :=
  decide ((w, h) ∈ supportedSizes)

/-- C8: the resolution group holds exactly eleven distinct `(width, height)`
buckets, `is_valid` is membership in that fixed set, and in particular
`is_valid(1024, 1024)` is true while `is_valid(999, 999)` is false. -/
theorem resolution_group_spec :
    resolutionGroupData.length = 11 ∧ supportedSizes.Nodup
    ∧ (∀ w h : ℕ, isValid w h = true ↔ (w, h) ∈
        [(768, 768), (1024, 1024), (1280, 1280),
         (1024, 768), (1152, 864), (1280, 960),
         (768, 1024), (864, 1152), (960, 1280),
         (1280, 768), (768, 1280)])
    ∧ isValid 1024 1024 = true ∧ isValid 999 999 = false := by
  refine ⟨by decide, by decide, ?_, by decide, by decide⟩
  intro w h
  simp [isValid, supportedSizes, resolutionGroupData]

/-- Content of one on-disk file.  Text dumps of tensors (the f-string debug
writes) are modelled by storing the dumped tensor itself. -/
inductive File where
  | t1 (t : Tensor1)
  | t2 (t : Tensor2)
  | t3 (t : Tensor3)
  | t4 (t : Tensor4)
  | txt (s : String)

/-- The file store: newest write first, keyed by full path. -/
abbrev FS := List (String × File)

/-- `open(path, 'w').write(content)`. -/
def fsWrite (fs : FS) (path : String) (content : File) : FS :=
  (path, content) :: fs

/-- Path lookup (newest entry wins, like a file system overwrite). -/
def fsLookup : FS → String → Option File
  | [], _ => none
  | (q, f) :: rest, p => if p = q then some f else fsLookup rest p

/-- `torch.load(path)` expecting a rank-3 tensor. -/
def fsLoad3 (fs : FS) (path : String) : Option Tensor3 :=
  match fsLookup fs path with
  | some (File.t3 t) => some t
  | _ => none

/-- `torch.load(path)` expecting a rank-2 tensor. -/
def fsLoad2 (fs : FS) (path : String) : Option Tensor2 :=
  match fsLookup fs path with
  | some (File.t2 t) => some t
  | _ => none

theorem fsLookup_write_ne {p q : String} (fs : FS) (f : File) (h : p ≠ q) :
    fsLookup (fsWrite fs q f) p = fsLookup fs p := by
  simp [fsWrite, fsLookup, h]

/-- Two paths sharing the directory prefix differ when their tails differ. -/
theorem path_ne_of_tail_ne (d : String) {s t : String} (h : ¬ s.data = t.data) :
    d ++ s ≠ d ++ t := by
  intro he
  have hd : (d ++ s).data = (d ++ t).data := congrArg String.data he
  rw [String.data_append, String.data_append] at hd
  exact h (List.append_cancel_left hd)

/-- Environment of parameterless external kernels plus the global
`folder_paths.output_directory`. -/
structure ExtEnv where
  dir : String
  silu : ℚ → ℚ
  timestepEmbedding : Tensor1 → ℕ → Tensor2

/-- `F.silu` (`FP32_SiLU`) applied entrywise to a rank-2 tensor. -/
def siluT2 (ext : ExtEnv) (t : Tensor2) : Tensor2 :=
  ⟨t.n, t.d, fun i j => ext.silu (t.data i j)⟩

/-- An `nn.Linear(inF, outF)` parameter record. -/
structure Linear where
  inF : ℕ
  outF : ℕ
  weight : ℕ → ℕ → ℚ
  bias : ℕ → ℚ

/-- `nn.Linear` applied to each row of a rank-2 tensor. -/
def Linear.apply2 (l : Linear) (t : Tensor2) : Tensor2 :=
  ⟨t.n, l.outF, fun i o => (∑ k ∈ Finset.range l.inF, l.weight o k * t.data i k) + l.bias o⟩

/-- `nn.Linear` applied to each token of a rank-3 tensor. -/
def Linear.apply3 (l : Linear) (t : Tensor3) : Tensor3 :=
  ⟨t.n, t.t, l.outF, fun i s o => (∑ k ∈ Finset.range l.inF, l.weight o k * t.data i s k) + l.bias o⟩

/-- `nn.init.constant_(·, 0)` on both weight and bias of a linear layer. -/
def zeroLinearParams (l : Linear) : Linear :=
  { l with weight := fun _ _ => 0, bias := fun _ => 0 }

/-- `HunYuan.unpatchify(x, h, w)` from models.py lines 503-516, for channel
count `cC` (`self.unpatchify_channels`) and patch size `p`
(`self.x_embedder.patch_size[0]`).  The `assert h * w == x.shape[1]` is the
outer guard; the inner guard is the element-count precondition of
`x.reshape(N, h, w, p, p, c)` (PyTorch raises if it fails).  The reshape,
the `einsum('nhwpqc->nchpwq', ...)` permutation and the final reshape are
translated to index arithmetic on the row-major flat layout. -/
def unpatchify (cC p : ℕ) (x : Tensor3) (h w : ℕ) : Option Tensor4 :=
  if h * w = x.t then
    if x.n * x.t * x.d = x.n * (h * (w * (p * (p * cC)))) then
      let r6 : ℕ → ℕ → ℕ → ℕ → ℕ → ℕ → ℚ := fun i hh ww pp qq cc =>
        x.data i (hh * w + ww) (pp * (p * cC) + qq * cC + cc)
      let perm : ℕ → ℕ → ℕ → ℕ → ℕ → ℕ → ℚ := fun i cc hh pp ww qq =>
        r6 i hh ww pp qq cc
      some ⟨x.n, cC, h * p, w * p, fun i cc r s =>
        perm i cc (r / p) (r % p) (s / p) (s % p)⟩
    else none
  else none

/-- C2: on a mismatched grid (`h * w ≠ T`) `unpatchify` fails with the
shape-mismatch assertion; on a matching grid and a well-shaped input
(`D = p² · C`) it returns the `(N, C, h·p, w·p)` tensor obtained by viewing
each token as a `(p, p, C)` block and permuting axes as
`(n,h,w,p,q,c) → (n,c,h,p,w,q)`. -/
theorem unpatchify_spec (cC p : ℕ) (x : Tensor3) (h w : ℕ) :
    (h * w ≠ x.t → unpatchify cC p x h w = none)
    ∧ (h * w = x.t → x.d = p * (p * cC) →
        unpatchify cC p x h w = some ⟨x.n, cC, h * p, w * p, fun i cc r s =>
          x.data i ((r / p) * w + s / p) ((r % p) * (p * cC) + (s % p) * cC + cc)⟩) := by
  constructor
  · intro hne
    simp [unpatchify, hne]
  · intro ht hd
    have hsz : x.n * x.t * x.d = x.n * (h * (w * (p * (p * cC)))) := by
      rw [← ht, hd]; ring
    simp [unpatchify, ht, hsz]

/-- A concrete `(1, 1, 4)` input tensor for evaluating `unpatchify`. -/
def exX3 : Tensor3 := ⟨1, 1, 4, fun i l j => (i : ℚ) + 10 * l + 100 * j⟩

theorem unpatchify_spec_witness :
    unpatchify 1 2 exX3 1 1 = some ⟨exX3.n, 1, 1 * 2, 1 * 2, fun i cc r s =>
      exX3.data i ((r / 2) * 1 + s / 2) ((r % 2) * (2 * 1) + (s % 2) * 1 + cc)⟩ :=
  (unpatchify_spec 1 2 exX3 1 1).2 rfl rfl

/-- A rotary position embedding table: the (cos, sin) pair returned by
`get_2d_rotary_pos_embed`. -/
abbrev Rope := Tensor2 × Tensor2

/-- Which normalization class `HunYuanDiTBlock.__init__` selected
(`FP32_Layernorm` for `"layer"`, `RMSNorm` for `"rms"`). -/
inductive NormKind where
  | fp32Layer
  | rms
deriving DecidableEq

/-- A `HunYuanDiTBlock`.  The attention kernels, the MLP and the
normalization layers are external modules, modelled as abstract functions;
`default_modulation` is `Sequential(FP32_SiLU(), Linear)`, whose linear
parameters are recorded here.  `skipLinear = none` models
`self.skip_linear = None`. -/
structure Block where
  normKind : NormKind
  norm1 : Tensor3 → Tensor3
  norm2 : Tensor3 → Tensor3
  norm3 : Tensor3 → Tensor3
  skipNorm : Tensor3 → Tensor3
  attn1 : Tensor3 → Rope → Tensor3 × Tensor3
  attn2 : Tensor3 → Tensor3 → Rope → Tensor3 × Tensor3
  mlp : Tensor3 → Tensor3
  defaultModulation : Linear
  skipLinear : Option Linear

/-- `HunYuanDiTBlock.__init__` from models.py lines 62-118.  The external
module constructors are supplied as arguments: `normImpl kind width` builds
the selected normalization layer (`norm_layer(width, ...)`), `a1`/`a2`/`ml`
are the constructed attention/MLP modules, `modLin` the fresh
`default_modulation` linear and `skipLin` the fresh `skip_linear`.
Unknown `norm_type` raises `ValueError` before any module is built. -/
def mkHunYuanDiTBlock (hiddenSize : ℕ)
    (normImpl : NormKind → ℕ → Tensor3 → Tensor3)
    (a1 : Tensor3 → Rope → Tensor3 × Tensor3)
    (a2 : Tensor3 → Tensor3 → Rope → Tensor3 × Tensor3)
    (ml : Tensor3 → Tensor3) (modLin skipLin : Linear)
    (skip : Bool) (normType : String) : Except String Block :=
  if normType = "layer" then
    Except.ok
      { normKind := NormKind.fp32Layer
        norm1 := normImpl NormKind.fp32Layer hiddenSize
        norm2 := normImpl NormKind.fp32Layer hiddenSize
        norm3 := normImpl NormKind.fp32Layer hiddenSize
        skipNorm := normImpl NormKind.fp32Layer (2 * hiddenSize)
        attn1 := a1, attn2 := a2, mlp := ml
        defaultModulation := modLin
        skipLinear := if skip then some skipLin else none }
  else if normType = "rms" then
    Except.ok
      { normKind := NormKind.rms
        norm1 := normImpl NormKind.rms hiddenSize
        norm2 := normImpl NormKind.rms hiddenSize
        norm3 := normImpl NormKind.rms hiddenSize
        skipNorm := normImpl NormKind.rms (2 * hiddenSize)
        attn1 := a1, attn2 := a2, mlp := ml
        defaultModulation := modLin
        skipLinear := if skip then some skipLin else none }
  else
    Except.error s!"Unknown norm_type: {normType}"

/-- C9: constructing a `HunYuanDiTBlock` with a `norm_type` other than
`"layer"` or `"rms"` fails at construction time with the `ValueError`
`Unknown norm_type: ...`; for the two known values construction succeeds and
selects `FP32_Layernorm` resp. `RMSNorm`. -/
theorem block_norm_type_spec (hiddenSize : ℕ)
    (normImpl : NormKind → ℕ → Tensor3 → Tensor3)
    (a1 : Tensor3 → Rope → Tensor3 × Tensor3)
    (a2 : Tensor3 → Tensor3 → Rope → Tensor3 × Tensor3)
    (ml : Tensor3 → Tensor3) (modLin skipLin : Linear) (skip : Bool) :
    (∀ normType : String, normType ≠ "layer" → normType ≠ "rms" →
      mkHunYuanDiTBlock hiddenSize normImpl a1 a2 ml modLin skipLin skip normType
        = Except.error s!"Unknown norm_type: {normType}")
    ∧ (mkHunYuanDiTBlock hiddenSize normImpl a1 a2 ml modLin skipLin skip "layer").map
        Block.normKind = Except.ok NormKind.fp32Layer
    ∧ (mkHunYuanDiTBlock hiddenSize normImpl a1 a2 ml modLin skipLin skip "rms").map
        Block.normKind = Except.ok NormKind.rms := by
  refine ⟨?_, rfl, rfl⟩
  intro normType h1 h2
  simp [mkHunYuanDiTBlock, h1, h2]

/-- A trivial external normalization layer, for witnesses. -/
def exNormImpl : NormKind → ℕ → Tensor3 → Tensor3 := fun _ _ t => t

/-- A trivial external self-attention module, for witnesses. -/
def exAttn1 : Tensor3 → Rope → Tensor3 × Tensor3 := fun t _ => (t, t)

/-- A trivial external cross-attention module, for witnesses. -/
def exAttn2 : Tensor3 → Tensor3 → Rope → Tensor3 × Tensor3 := fun t _ _ => (t, t)

/-- A trivial external MLP module, for witnesses. -/
def exMlp : Tensor3 → Tensor3 := fun t => t

/-- A trivial linear layer, for witnesses. -/
def exLinear : Linear := ⟨0, 0, fun _ _ => 0, fun _ => 0⟩

theorem block_norm_type_spec_witness :
    mkHunYuanDiTBlock 64 exNormImpl exAttn1 exAttn2 exMlp exLinear exLinear false "silk"
      = Except.error "Unknown norm_type: silk" :=
  (block_norm_type_spec 64 exNormImpl exAttn1 exAttn2 exMlp exLinear exLinear false).1
    "silk" (by decide) (by decide)

/-- `HunYuanDiTBlock.forward` from models.py lines 120-150, including its
debug file writes.  The only failure mode is `torch.cat([x, None])`
(a `TypeError`) when `skip_linear` is configured but no skip tensor is
passed; it is modelled by `none`. -/
def blockForward (ext : ExtEnv) (b : Block) (x : Tensor3) (c : Tensor2)
    (textStates : Tensor3) (freqCisImg : Rope) (skip : Option Tensor3)
    (fs : FS) : Option (Tensor3 × FS) :=
  let fs1 := fsWrite fs (ext.dir ++ "/x1.txt") (File.t3 x)
  let xSkip : Option Tensor3 :=
    match b.skipLinear with
    | some sl =>
      match skip with
      | some s => some (Linear.apply3 sl (b.skipNorm (cat3last x s)))
      | none => none
    | none => some x
  xSkip.map (fun x0 =>
    let shiftMsa := Linear.apply2 b.defaultModulation (siluT2 ext c)
    let fs2 := fsWrite fs1 (ext.dir ++ "/shift_msa.txt") (File.t2 shiftMsa)
    let fs3 := fsWrite fs2 (ext.dir ++ "/x.txt") (File.t3 (b.norm1 x0))
    let x1 := add3 x0 (b.attn1 (addSeq (b.norm1 x0) shiftMsa) freqCisImg).1
    let x2 := add3 x1 (b.attn2 (b.norm3 x1) textStates freqCisImg).1
    let x3 := add3 x2 (b.mlp (b.norm2 x2))
    (x3, fs3))

/-- The returned tensor of a block, with the file-store component dropped. -/
theorem blockForward_fst (ext : ExtEnv) (b : Block) (x : Tensor3) (c : Tensor2)
    (textStates : Tensor3) (freqCisImg : Rope) (skip : Option Tensor3) (fs : FS) :
    (blockForward ext b x c textStates freqCisImg skip fs).map Prod.fst =
      (match b.skipLinear with
       | some sl =>
         match skip with
         | some s => some (Linear.apply3 sl (b.skipNorm (cat3last x s)))
         | none => none
       | none => some x).map (fun x0 =>
        let shiftMsa := Linear.apply2 b.defaultModulation (siluT2 ext c)
        let x1 := add3 x0 (b.attn1 (addSeq (b.norm1 x0) shiftMsa) freqCisImg).1
        let x2 := add3 x1 (b.attn2 (b.norm3 x1) textStates freqCisImg).1
        add3 x2 (b.mlp (b.norm2 x2))) := by
  cases hb : b.skipLinear with
  | none => simp [blockForward, hb]
  | some sl =>
    cases skip with
    | none => simp [blockForward, hb]
    | some s => simp [blockForward, hb]

/-- C10: `HunYuanDiTBlock.forward` is a pure function of
`(x, c, text_states, freq_cis_img, skip)`: its returned tensor does not
depend on the ambient file-store state (the block reads no files, so nothing
persists between calls), and it equals the composition
skip-concatenate/normalize/project (when `skip_linear` is configured),
then self-attention with the conditioning-derived shift and residual add,
then cross-attention over `text_states` with residual add, then the MLP with
residual add. -/
theorem block_forward_pure (ext : ExtEnv) (b : Block) (x : Tensor3) (c : Tensor2)
    (textStates : Tensor3) (freqCisImg : Rope) (skip : Option Tensor3) :
    (∀ fs1 fs2 : FS,
      (blockForward ext b x c textStates freqCisImg skip fs1).map Prod.fst =
      (blockForward ext b x c textStates freqCisImg skip fs2).map Prod.fst)
    ∧ (∀ fs : FS,
      (blockForward ext b x c textStates freqCisImg skip fs).map Prod.fst =
        (match b.skipLinear with
         | some sl =>
           match skip with
           | some s => some (Linear.apply3 sl (b.skipNorm (cat3last x s)))
           | none => none
         | none => some x).map (fun x0 =>
          let shiftMsa := Linear.apply2 b.defaultModulation (siluT2 ext c)
          let x1 := add3 x0 (b.attn1 (addSeq (b.norm1 x0) shiftMsa) freqCisImg).1
          let x2 := add3 x1 (b.attn2 (b.norm3 x1) textStates freqCisImg).1
          add3 x2 (b.mlp (b.norm2 x2)))) := by
  constructor
  · intro fs1 fs2
    rw [blockForward_fst, blockForward_fst]
  · intro fs
    exact blockForward_fst ext b x c textStates freqCisImg skip fs

/-- The crop box returned by `get_fill_resize_and_crop` (external code):
a (start, stop) pair of coordinate pairs. -/
abbrev Crop := (ℚ × ℚ) × (ℚ × ℚ)

/-- `FinalLayer` from models.py lines 153-164: `norm_final` is an
`nn.LayerNorm(..., elementwise_affine=False)` (external kernel, abstract),
`linear` the output projection, and `adaLN` the linear of
`adaLN_modulation = Sequential(FP32_SiLU(), Linear)`. -/
structure FinalLayer where
  normFinal : Tensor3 → Tensor3
  linear : Linear
  adaLN : Linear

/-- `FinalLayer.forward(x, c)` from models.py lines 166-170:
`shift, scale = adaLN_modulation(c).chunk(2, dim=1)`, then
`modulate(norm_final(x), shift, scale)`, then the linear projection. -/
def FinalLayer.fwd (ext : ExtEnv) (fl : FinalLayer) (x : Tensor3) (c : Tensor2) : Tensor3 :=
  let modOut := Linear.apply2 fl.adaLN (siluT2 ext c)
  let halfW := (modOut.d + 1) / 2
  let shift : Tensor2 := ⟨modOut.n, halfW, fun i j => modOut.data i j⟩
  let scale : Tensor2 := ⟨modOut.n, modOut.d - halfW, fun i j => modOut.data i (halfW + j)⟩
  Linear.apply3 fl.linear (modulate (fl.normFinal x) shift scale)

/-- The `HunYuan` model state after `__init__`: configuration scalars,
parameter-bearing concrete layers (`mlp_t5`, `extra_embedder` as their two
linear layers with the `FP32_SiLU` in between, `text_embedding_padding`),
the block list and final layer, and the external parameter-bearing
submodules (`pooler`, `style_embedder`, `x_embedder`, `t_embedder`) and
positional-embedding kernels as abstract functions. -/
structure Model where
  depth : ℕ
  patchSize : ℕ
  inChannels : ℕ
  unpatchifyChannels : ℕ
  headSize : ℕ
  mlpT5a : Linear
  mlpT5b : Linear
  textEmbeddingPadding : Tensor2
  pooler : Tensor3 → Tensor2
  styleEmbedder : Tensor1 → Tensor2
  xEmbedder : Tensor4 → Tensor3
  tEmbedder : Tensor1 → Tensor2
  extraA : Linear
  extraB : Linear
  blocks : List Block
  finalLayer : FinalLayer
  getFillResizeAndCrop : ℕ × ℕ → ℕ → Crop
  get2dRotaryPosEmbed : ℕ → Crop → ℕ × ℕ → Rope

/-- `self.mlp_t5` applied to a flattened `(B·L, C)` tensor. -/
def mlpT5Apply (m : Model) (ext : ExtEnv) (t : Tensor2) : Tensor2 :=
  Linear.apply2 m.mlpT5b (siluT2 ext (Linear.apply2 m.mlpT5a t))

/-- `self.extra_embedder` applied to the concatenated extra vector. -/
def extraEmbApply (m : Model) (ext : ExtEnv) (t : Tensor2) : Tensor2 :=
  Linear.apply2 m.extraB (siluT2 ext (Linear.apply2 m.extraA t))

/-- `HunYuan.initialize_weights` from models.py lines 470-501, restricted to
its deterministic tail (lines 492-501): the xavier/normal initializations of
lines 470-490 draw random values and are modelled by the arbitrary incoming
model state `m`; the subsequent `nn.init.constant_(·, 0)` calls zero the
`default_modulation` linear of every block and the `adaLN_modulation` linear
and output `linear` of the final layer, overwriting whatever the random
pass produced there. -/
def initializeWeights (m : Model) : Model :=
  { m with
    blocks := m.blocks.map (fun b =>
      { b with defaultModulation := zeroLinearParams b.defaultModulation })
    finalLayer :=
      { m.finalLayer with
        adaLN := zeroLinearParams m.finalLayer.adaLN
        linear := zeroLinearParams m.finalLayer.linear } }

/-- C4: immediately after `initialize_weights`, the final projection weight
and bias, the final layer's adaLN-modulation weight and bias, and every
block's `default_modulation` weight and bias are zero, and consequently
`FinalLayer.forward(x, c)` is the all-zero tensor for every `x` and `c`. -/
theorem initialize_weights_zero_final (m : Model) (ext : ExtEnv)
    (x : Tensor3) (c : Tensor2) :
    ((initializeWeights m).finalLayer.linear.weight = fun _ _ => 0)
    ∧ ((initializeWeights m).finalLayer.linear.bias = fun _ => 0)
    ∧ ((initializeWeights m).finalLayer.adaLN.weight = fun _ _ => 0)
    ∧ ((initializeWeights m).finalLayer.adaLN.bias = fun _ => 0)
    ∧ ((initializeWeights m).blocks.map (fun b =>
        (b.defaultModulation.weight, b.defaultModulation.bias))
      = List.replicate m.blocks.length (fun _ _ => (0 : ℚ), fun _ => (0 : ℚ)))
    ∧ (FinalLayer.fwd ext (initializeWeights m).finalLayer x c).data
        = fun _ _ _ => 0 := by
  refine ⟨rfl, rfl, rfl, rfl, ?_, ?_⟩
  · have h : ∀ l : List Block,
        ((l.map (fun b =>
          { b with defaultModulation := zeroLinearParams b.defaultModulation })).map
            (fun b => (b.defaultModulation.weight, b.defaultModulation.bias)))
        = List.replicate l.length (fun _ _ => (0 : ℚ), fun _ => (0 : ℚ)) := by
      intro l
      induction l with
      | nil => rfl
      | cons hd tl ih =>
        simp only [List.map_cons, List.length_cons, List.replicate]
        exact congrArg₂ List.cons rfl ih
    exact h m.blocks
  · funext i s o
    simp [FinalLayer.fwd, initializeWeights, zeroLinearParams, Linear.apply3]

/-- The block loop of `HunYuan.forward_raw` (models.py lines 451-460),
abstracted over the per-layer body.  For each `layer` in order: if
`layer > depth // 2` a skip tensor is popped (LIFO; an empty stack at a pop
is the `IndexError` of `skips.pop()`, modelled by `none`); the body `step`
is applied (it may itself fail, modelled by `Option`); if
`layer < depth // 2 - 1` the produced value is pushed. -/
def blocksGo {α σ : Type} (depth : ℕ)
    (step : ℕ → α → σ → Option α → Option (α × σ)) :
    List ℕ → α → σ → List α → Option (α × σ × List α)
  | [], xx, st, skips => some (xx, st, skips)
  | layer :: rest, xx, st, skips =>
    let popped : Option (Option α × List α) :=
      if depth / 2 < layer then
        match skips with
        | [] => none
        | sk :: more => some (some sk, more)
      else some (none, skips)
    match popped with
    | none => none
    | some (skOpt, skips1) =>
      match step layer xx st skOpt with
      | none => none
      | some (x1, st1) =>
        blocksGo depth step rest x1 st1 (if layer < depth / 2 - 1 then x1 :: skips1 else skips1)

/-- With a total per-layer body, success of the block loop depends only on
the layer list and the size of the skip stack, not on the carried values. -/
theorem blocksGo_total_isSome {α σ β τ : Type} (depth : ℕ)
    (f : ℕ → α → σ → Option α → α × σ) (g : ℕ → β → τ → Option β → β × τ) :
    ∀ (layers : List ℕ) (x1 : α) (s1 : σ) (x2 : β) (s2 : τ)
      (sk1 : List α) (sk2 : List β), sk1.length = sk2.length →
      (blocksGo depth (fun l a s k => some (f l a s k)) layers x1 s1 sk1).isSome =
      (blocksGo depth (fun l a s k => some (g l a s k)) layers x2 s2 sk2).isSome := by
  intro layers
  induction layers with
  | nil => intro x1 s1 x2 s2 sk1 sk2 _; rfl
  | cons layer rest ih =>
    intro x1 s1 x2 s2 sk1 sk2 hlen
    by_cases hpop : depth / 2 < layer
    · cases sk1 with
      | nil =>
        cases sk2 with
        | nil => simp [blocksGo, hpop]
        | cons b bs => simp at hlen
      | cons a as =>
        cases sk2 with
        | nil => simp at hlen
        | cons b bs =>
          simp only [List.length_cons, Nat.succ.injEq] at hlen
          by_cases hpush : layer < depth / 2 - 1
          · have hh : ((f layer x1 s1 (some a)).1 :: as).length
                = ((g layer x2 s2 (some b)).1 :: bs).length := by
              simp [hlen]
            simpa [blocksGo, hpop, hpush] using ih _ _ _ _ _ _ hh
          · simpa [blocksGo, hpop, hpush] using ih _ _ _ _ as bs hlen
    · by_cases hpush : layer < depth / 2 - 1
      · simpa [blocksGo, hpop, hpush] using ih _ _ _ _ _ _ (by simp [hlen])
      · simpa [blocksGo, hpop, hpush] using ih _ _ _ _ sk1 sk2 hlen

/-- C1: for each supported depth (12, 24, 28, 40), among the layer indices
`0 .. depth-1` of the block loop, the skip-producing indices
(`layer < depth // 2 - 1`, which append to `skips`) are exactly as many as
the skip-consuming ones (`layer > depth // 2`, which pop), and running the
loop from an empty stack never pops an empty stack: with any (total)
per-layer body the loop completes (the only `none` sources left in
`blocksGo` are pop underflows). -/
theorem skip_stack_balanced :
    ((List.range 12).countP (fun l => decide (l < 12 / 2 - 1))
        = (List.range 12).countP (fun l => decide (12 / 2 < l))
      ∧ (List.range 24).countP (fun l => decide (l < 24 / 2 - 1))
        = (List.range 24).countP (fun l => decide (24 / 2 < l))
      ∧ (List.range 28).countP (fun l => decide (l < 28 / 2 - 1))
        = (List.range 28).countP (fun l => decide (28 / 2 < l))
      ∧ (List.range 40).countP (fun l => decide (l < 40 / 2 - 1))
        = (List.range 40).countP (fun l => decide (40 / 2 < l)))
    ∧ (∀ {α σ : Type} (f : ℕ → α → σ → Option α → α × σ) (x0 : α) (s0 : σ),
        (blocksGo 12 (fun l a s k => some (f l a s k)) (List.range 12) x0 s0 []).isSome = true
        ∧ (blocksGo 24 (fun l a s k => some (f l a s k)) (List.range 24) x0 s0 []).isSome = true
        ∧ (blocksGo 28 (fun l a s k => some (f l a s k)) (List.range 28) x0 s0 []).isSome = true
        ∧ (blocksGo 40 (fun l a s k => some (f l a s k)) (List.range 40) x0 s0 []).isSome = true) := by
  refine ⟨⟨by decide, by decide, by decide, by decide⟩, ?_⟩
  intro α σ f x0 s0
  refine ⟨?_, ?_, ?_, ?_⟩ <;>
    rw [blocksGo_total_isSome _ f (fun _ (b : Unit) (t : Unit) _ => ((), ()))
      _ x0 s0 () () [] [] rfl] <;> decide

/-- Decimal value of a digit character. -/
def digVal (c : Char) : ℕ := c.toNat - '0'.toNat

/-- Fold a digit list back into the number it denotes. -/
def parseDigits (l : List Char) : ℕ :=
  l.foldl (fun a c => a * 10 + digVal c) 0

theorem digitChar_val_lt10 : ∀ k : ℕ, k < 10 → digVal (Nat.digitChar k) = k := by
  decide

theorem digitChar_ne_x_lt10 : ∀ k : ℕ, k < 10 → Nat.digitChar k ≠ 'x' := by
  decide

theorem toDigitsCore_notMem_x :
    ∀ (fuel n : ℕ) (ds : List Char), 'x' ∉ ds → 'x' ∉ Nat.toDigitsCore 10 fuel n ds := by
  intro fuel
  induction fuel with
  | zero => intro n ds h; simpa [Nat.toDigitsCore] using h
  | succ fuel ih =>
    intro n ds h
    have hd : Nat.digitChar (n % 10) ≠ 'x' :=
      digitChar_ne_x_lt10 _ (Nat.mod_lt _ (by decide))
    have hmem : 'x' ∉ Nat.digitChar (n % 10) :: ds := by
      intro hx
      rcases List.mem_cons.mp hx with hx | hx
      · exact hd hx.symm
      · exact h hx
    by_cases hz : n / 10 = 0
    · simpa [Nat.toDigitsCore, hz] using hmem
    · simpa [Nat.toDigitsCore, hz] using ih (n / 10) _ hmem

theorem toDigitsCore_acc (fuel : ℕ) :
    ∀ (n : ℕ) (ds : List Char),
      Nat.toDigitsCore 10 fuel n ds = Nat.toDigitsCore 10 fuel n [] ++ ds := by
  induction fuel with
  | zero => intro n ds; simp [Nat.toDigitsCore]
  | succ fuel ih =>
    intro n ds
    by_cases hz : n / 10 = 0
    · simp [Nat.toDigitsCore, hz]
    · simp only [Nat.toDigitsCore, hz, if_false]
      rw [ih (n / 10) (Nat.digitChar (n % 10) :: ds), ih (n / 10) [Nat.digitChar (n % 10)]]
      simp

theorem parse_toDigitsCore (fuel : ℕ) :
    ∀ n : ℕ, n < fuel → parseDigits (Nat.toDigitsCore 10 fuel n []) = n := by
  induction fuel with
  | zero => intro n h; omega
  | succ fuel ih =>
    intro n h
    by_cases hz : n / 10 = 0
    · have hlt : n < 10 := by omega
      simp [Nat.toDigitsCore, hz, parseDigits, digVal]
      have := digitChar_val_lt10 (n % 10) (Nat.mod_lt _ (by decide))
      simp [digVal] at this
      omega
    · have h1 : n / 10 < fuel := by omega
      simp only [Nat.toDigitsCore, hz, if_false]
      rw [toDigitsCore_acc]
      simp only [parseDigits, List.foldl_append, List.foldl_cons, List.foldl_nil]
      have hmod := digitChar_val_lt10 (n % 10) (Nat.mod_lt _ (by decide))
      have hrec := ih (n / 10) h1
      simp only [parseDigits] at hrec
      rw [hrec, hmod]
      omega

theorem repr_data_inj {a b : ℕ} (h : (Nat.repr a).data = (Nat.repr b).data) : a = b := by
  have ha := parse_toDigitsCore (a + 1) a (Nat.lt_succ_self a)
  have hb := parse_toDigitsCore (b + 1) b (Nat.lt_succ_self b)
  have hx : Nat.toDigitsCore 10 (a + 1) a [] = Nat.toDigitsCore 10 (b + 1) b [] := h
  rw [← ha, ← hb, hx]

theorem repr_notMem_x (n : ℕ) : 'x' ∉ (Nat.repr n).data :=
  toDigitsCore_notMem_x (n + 1) n [] (by simp)

theorem splitAtX :
    ∀ (l1 : List Char) (r1 l2 r2 : List Char), 'x' ∉ l1 → 'x' ∉ l2 →
      l1 ++ 'x' :: r1 = l2 ++ 'x' :: r2 → l1 = l2 ∧ r1 = r2 := by
  intro l1
  induction l1 with
  | nil =>
    intro r1 l2 r2 _ h2 h
    cases l2 with
    | nil => simpa using h
    | cons c cs =>
      simp only [List.nil_append, List.cons_append, List.cons.injEq] at h
      exact absurd (h.1 ▸ List.mem_cons_self c cs) h2
  | cons a as ih =>
    intro r1 l2 r2 h1 h2 h
    cases l2 with
    | nil =>
      simp only [List.cons_append, List.nil_append, List.cons.injEq] at h
      exact absurd (h.1 ▸ List.mem_cons_self a as) h1
    | cons c cs =>
      simp only [List.cons_append, List.cons.injEq] at h
      have htl := ih r1 cs r2 (fun hx => h1 (List.mem_cons_of_mem a hx))
        (fun hx => h2 (List.mem_cons_of_mem c hx)) h.2
      exact ⟨by rw [h.1, htl.1], htl.2⟩

/-- Injectivity of the `f'{h}x{w}'` dictionary keys. -/
theorem key_inj {a b c d : ℕ}
    (h : Nat.repr a ++ "x" ++ Nat.repr b = Nat.repr c ++ "x" ++ Nat.repr d) :
    a = c ∧ b = d := by
  have hd : (Nat.repr a).data ++ 'x' :: (Nat.repr b).data
      = (Nat.repr c).data ++ 'x' :: (Nat.repr d).data := by
    have := congrArg String.data h
    simpa [String.data_append] using this
  have hs := splitAtX _ _ _ _ (repr_notMem_x a) (repr_notMem_x c) hd
  exact ⟨repr_data_inj hs.1, repr_data_inj hs.2⟩

/-- `HunYuan.calc_rope(height, width)` from models.py lines 276-284: compute
the patch-grid size `(th, tw)` and base size by integer division, then call
the external `get_fill_resize_and_crop` and `get_2d_rotary_pos_embed`. -/
def calcRope (m : Model) (height width : ℕ) : Rope :=
  let th := height / 8 / m.patchSize
  let tw := width / 8 / m.patchSize
  let baseSize := 512 / 8 / m.patchSize
  m.get2dRotaryPosEmbed m.headSize (m.getFillResizeAndCrop (th, tw) baseSize) (th, tw)

/-- `HunYuan.standard_shapes()` from models.py lines 286-291: the resolution
group, plus the dictionary mapping `str(reso) = f'{height}x{width}'` to
`calc_rope(reso.height, reso.width)` (dict modelled as an association
list; its eleven keys are distinct so first-match lookup agrees). -/
def standardShapes (m : Model) : List Resolution × List (String × Rope) :=
  (resolutionGroupData,
   resolutionGroupData.map (fun r => (r.str, calcRope m r.height r.width)))

/-- The rotary-embedding selection of `forward_raw` (models.py lines
436-442): rebuild the table via `standard_shapes`, look up the key
`f'{target_height}x{target_width}'`, and fall back to `calc_rope` on a
miss. -/
def ropeFromTable (m : Model) (targetHeight targetWidth : ℕ) : Rope :=
  let freqsCisImg := (standardShapes m).2
  let reso := Nat.repr targetHeight ++ "x" ++ Nat.repr targetWidth
  match freqsCisImg.lookup reso with
  | some r => r
  | none => calcRope m targetHeight targetWidth

/-- Any hit in a table of `(str(reso), calc_rope(reso))` pairs stores exactly
the on-demand value for the looked-up height/width. -/
theorem lookup_rope_table (m : Model) :
    ∀ (rs : List Resolution) (th tw : ℕ) (r : Rope),
      (rs.map (fun rr => (rr.str, calcRope m rr.height rr.width))).lookup
        (Nat.repr th ++ "x" ++ Nat.repr tw) = some r → r = calcRope m th tw := by
  intro rs
  induction rs with
  | nil => intro th tw r h; simp at h
  | cons rr rest ih =>
    intro th tw r h
    simp only [List.map_cons, List.lookup] at h
    rcases hbeq : ((Nat.repr th ++ "x" ++ Nat.repr tw) == rr.str) with _ | _
    · rw [hbeq] at h
      exact ih th tw r h
    · rw [hbeq] at h
      have hkey := key_inj (eq_of_beq hbeq : _ = rr.str)
      obtain ⟨h1, h2⟩ := hkey
      subst h1
      subst h2
      simpa using h.symm

/-- C5: the rotary-embedding pair used by `forward_raw` equals
`calc_rope(target_height, target_width)` for every target: a hit in the
`standard_shapes` table returns exactly the on-demand computation stored
under the key `f'{height}x{width}'`, and a miss computes it directly — the
table is purely a cache. -/
theorem rope_table_is_cache (m : Model) (targetHeight targetWidth : ℕ) :
    ropeFromTable m targetHeight targetWidth = calcRope m targetHeight targetWidth := by
  simp only [ropeFromTable]
  cases hl : (standardShapes m).2.lookup
      (Nat.repr targetHeight ++ "x" ++ Nat.repr targetWidth) with
  | none => rfl
  | some r =>
    simp only [standardShapes] at hl
    exact lookup_rope_table m resolutionGroupData targetHeight targetWidth r hl

/-- The eight fixed embedding-file paths read by `forward_raw`
(models.py lines 364-371). -/
def ptPaths (ext : ExtEnv) : List String :=
  [ext.dir ++ "/clip_prompt_embeds.pt", ext.dir ++ "/clip_attention_mask.pt",
   ext.dir ++ "/clip_negative_prompt_embeds.pt",
   ext.dir ++ "/clip_negative_attention_mask.pt",
   ext.dir ++ "/mt5_prompt_embeds.pt", ext.dir ++ "/mt5_attention_mask.pt",
   ext.dir ++ "/mt5_negative_prompt_embeds.pt",
   ext.dir ++ "/mt5_negative_attention_mask.pt"]

/-- The block loop of `forward_raw` (models.py lines 450-460) followed by
the final layer and unpatchify (lines 462-468): run `blocksGo` over
`enumerate(self.blocks)` with the conditioning vector `c`, text states and
rotary tables fixed, then project and unpatchify the result. -/
def runBlocksAndFinish (m : Model) (ext : ExtEnv) (c : Tensor2)
    (textStates : Tensor3) (freqsCisImg : Rope) (xemb : Tensor3) (fs : FS)
    (th tw : ℕ) : Option (Tensor4 × FS) := do
  let r ← blocksGo m.depth
    (fun layer xx fss skOpt => (m.blocks.get? layer).bind
      (fun b => blockForward ext b xx c textStates freqsCisImg skOpt fss))
    (List.range m.blocks.length) xemb fs []
  let xFin := FinalLayer.fwd ext m.finalLayer r.1 c
  let img ← unpatchify m.unpatchifyChannels m.patchSize xFin th tw
  pure (img, r.2.1)

/-- Body of `HunYuan.forward_raw` (models.py lines 362-468) after the eight
`torch.load` calls: text-state assembly, batch doubling, conditioning
assembly, the block loop and the final layer / unpatchify.  The loaded
tensors are passed in; everything else follows the source line by line.
The parameter `y` is accepted (as in the source signature) and never read
(the source's only use, `y.to(self.dtype)`, is commented out). -/
def HunYuan.forwardRawCore (m : Model) (ext : ExtEnv) (fs : FS)
    (x : Tensor4) (t : Tensor1) (y : Tensor2)
    (clipPromptEmbeds : Tensor3) (clipAttnMask : Tensor2)
    (clipNegPromptEmbeds : Tensor3) (clipNegAttnMask : Tensor2)
    (mt5PromptEmbeds : Tensor3) (mt5AttnMask : Tensor2)
    (mt5NegPromptEmbeds : Tensor3) (mt5NegAttnMask : Tensor2) :
    Option (Tensor4 × FS) := do
  let ob := x.n
  let oh := x.h
  let ow := x.w
  let batchSize := ob
  let clipPromptEmbeds := rep3 batchSize clipPromptEmbeds
  let clipAttnMask := rep2 batchSize clipAttnMask
  let clipNegPromptEmbeds := rep3 batchSize clipNegPromptEmbeds
  let clipNegAttnMask := rep2 batchSize clipNegAttnMask
  let mt5PromptEmbeds := rep3 batchSize mt5PromptEmbeds
  let mt5AttnMask := rep2 batchSize mt5AttnMask
  let mt5NegPromptEmbeds := rep3 batchSize mt5NegPromptEmbeds
  let mt5NegAttnMask := rep2 batchSize mt5NegAttnMask
  let encoderHiddenStates := cat3d0 clipPromptEmbeds clipNegPromptEmbeds
  let encoderHiddenStatesT5 := cat3d0 mt5PromptEmbeds mt5NegPromptEmbeds
  let textEmbeddingMask := cat2d0 clipAttnMask clipNegAttnMask
  let textEmbeddingMaskT5 := cat2d0 mt5AttnMask mt5NegAttnMask
  let textStates := encoderHiddenStates
  let textStatesT5 := encoderHiddenStatesT5
  let textStatesMask := boolT2 textEmbeddingMask
  let textStatesT5Mask := boolT2 textEmbeddingMaskT5
  let bT5 := textStatesT5.n
  let lT5 := textStatesT5.t
  let t5proj := mlpT5Apply m ext (flatten3to2 textStatesT5)
  let textStates := cat3d1 textStates (unflatten2to3 bT5 lT5 t5proj)
  let clipT5Mask := catB2d1 textStatesMask textStatesT5Mask
  let textStates := whereMask clipT5Mask textStates m.textEmbeddingPadding
  let th := oh / m.patchSize
  let tw := ow / m.patchSize
  let t2 := rep1 2 t
  let x2 := rep4 2 x
  let temb := m.tEmbedder t2
  let xemb := m.xEmbedder x2
  let fs1 := fsWrite fs (ext.dir ++ "/x3.txt") (File.t3 xemb)
  let extraVec := m.pooler encoderHiddenStatesT5
  let height := oh * 8
  let width := ow * 8
  let targetHeight := height / 16 * 16
  let targetWidth := width / 16 * 16
  let sizeCond : List ℚ := [1024, 1024, (targetWidth : ℚ), (targetHeight : ℚ), 0, 0]
  let imageMetaSize := constRows (2 * batchSize) sizeCond
  let fs2 := fsWrite fs1 (ext.dir ++ "/image_meta_size.txt") (File.t2 imageMetaSize)
  let imsEmb := ext.timestepEmbedding (flatten2to1 imageMetaSize) 256
  let ims2 := view2 6 256 imsEmb
  let extraVec := cat2d1 extraVec ims2
  let style := zeros1 (2 * batchSize)
  let styleEmbedding := m.styleEmbedder style
  let extraVec := cat2d1 extraVec styleEmbedding
  let freqsCisImg := ropeFromTable m targetHeight targetWidth
  let fs3 := fsWrite fs2 (ext.dir ++ "/t.txt") (File.t2 temb)
  let fs4 := fsWrite fs3 (ext.dir ++ "/extra_vec.txt") (File.t2 extraVec)
  let c := add2 temb (extraEmbApply m ext extraVec)
  runBlocksAndFinish m ext c textStates freqsCisImg xemb fs4 th tw

/-- `HunYuan.forward_raw` from models.py lines 320-468: eight `torch.load`
calls (which overwrite the `encoder_hidden_states` /
`encoder_hidden_states_t5` parameters and both masks with file contents),
then the body above. -/
def HunYuan.forwardRaw (m : Model) (ext : ExtEnv) (fs : FS)
    (x : Tensor4) (t : Tensor1) (y : Tensor2) : Option (Tensor4 × FS) := do
  let clipPromptEmbeds ← fsLoad3 fs (ext.dir ++ "/clip_prompt_embeds.pt")
  let clipAttnMask ← fsLoad2 fs (ext.dir ++ "/clip_attention_mask.pt")
  let clipNegPromptEmbeds ← fsLoad3 fs (ext.dir ++ "/clip_negative_prompt_embeds.pt")
  let clipNegAttnMask ← fsLoad2 fs (ext.dir ++ "/clip_negative_attention_mask.pt")
  let mt5PromptEmbeds ← fsLoad3 fs (ext.dir ++ "/mt5_prompt_embeds.pt")
  let mt5AttnMask ← fsLoad2 fs (ext.dir ++ "/mt5_attention_mask.pt")
  let mt5NegPromptEmbeds ← fsLoad3 fs (ext.dir ++ "/mt5_negative_prompt_embeds.pt")
  let mt5NegAttnMask ← fsLoad2 fs (ext.dir ++ "/mt5_negative_attention_mask.pt")
  HunYuan.forwardRawCore m ext fs x t y
    clipPromptEmbeds clipAttnMask clipNegPromptEmbeds clipNegAttnMask
    mt5PromptEmbeds mt5AttnMask mt5NegPromptEmbeds mt5NegAttnMask

/-- `HunYuan.forward` from models.py lines 293-317: four debug writes, the
`context[:, 0]` slice cast to int and passed as `y`, the call to
`forward_raw`, then `eps = out[:, :in_channels]` and `eps[:x.shape[0]]`. -/
def HunYuan.forward (m : Model) (ext : ExtEnv) (fs : FS) (x : Tensor4)
    (timesteps : Tensor1) (context : Tensor3) (y : Option Tensor3) :
    Option (Tensor4 × FS) :=
  let fs1 := fsWrite fs (ext.dir ++ "/x.txt") (File.t4 x)
  let fs2 := fsWrite fs1 (ext.dir ++ "/context.txt") (File.t3 context)
  let fs3 := fsWrite fs2 (ext.dir ++ "/y.txt")
    (match y with | some ty => File.t3 ty | none => File.txt "None")
  let fs4 := fsWrite fs3 (ext.dir ++ "/kwargs.txt") (File.txt "kwargs")
  let ctx := col0 context
  match HunYuan.forwardRaw m ext fs4 x timesteps (toIntT2 ctx) with
  | none => none
  | some (out, fsOut) =>
    let eps := chanSlice m.inChannels out
    some (batchSlice x.n eps, fsOut)

theorem fsLoad3_write_ne (fs : FS) (q : String) (f : File) {p : String} (h : p ≠ q) :
    fsLoad3 (fsWrite fs q f) p = fsLoad3 fs p := by
  simp [fsLoad3, fsLookup_write_ne fs f h]

theorem fsLoad2_write_ne (fs : FS) (q : String) (f : File) {p : String} (h : p ≠ q) :
    fsLoad2 (fsWrite fs q f) p = fsLoad2 fs p := by
  simp [fsLoad2, fsLookup_write_ne fs f h]

/-- The block loop's value and skip-stack components do not depend on the
carried file store, provided each step's value is file-store independent. -/
theorem blocksGo_fs_congr {α σ τ : Type} (depth : ℕ)
    (step1 : ℕ → α → σ → Option α → Option (α × σ))
    (step2 : ℕ → α → τ → Option α → Option (α × τ))
    (hstep : ∀ l a k s1 s2,
      (step1 l a s1 k).map Prod.fst = (step2 l a s2 k).map Prod.fst) :
    ∀ (layers : List ℕ) (xx : α) (s1 : σ) (s2 : τ) (skips : List α),
      (blocksGo depth step1 layers xx s1 skips).map (fun r => (r.1, r.2.2)) =
      (blocksGo depth step2 layers xx s2 skips).map (fun r => (r.1, r.2.2)) := by
  intro layers
  induction layers with
  | nil => intro xx s1 s2 skips; rfl
  | cons layer rest ih =>
    intro xx s1 s2 skips
    by_cases hpop : depth / 2 < layer
    · cases skips with
      | nil => simp [blocksGo, hpop]
      | cons sk more =>
        have hs := hstep layer xx (some sk) s1 s2
        cases h1 : step1 layer xx s1 (some sk) with
        | none =>
          cases h2 : step2 layer xx s2 (some sk) with
          | none => simp [blocksGo, hpop, h1, h2]
          | some p2 => rw [h1, h2] at hs; simp at hs
        | some p1 =>
          cases h2 : step2 layer xx s2 (some sk) with
          | none => rw [h1, h2] at hs; simp at hs
          | some p2 =>
            rw [h1, h2] at hs
            simp only [Option.map_some', Option.some.injEq] at hs
            simp only [blocksGo, hpop, if_true, h1, h2]
            rw [hs]
            exact ih p2.1 p1.2 p2.2 _
    · have hs := hstep layer xx none s1 s2
      cases h1 : step1 layer xx s1 none with
      | none =>
        cases h2 : step2 layer xx s2 none with
        | none => simp [blocksGo, hpop, h1, h2]
        | some p2 => rw [h1, h2] at hs; simp at hs
      | some p1 =>
        cases h2 : step2 layer xx s2 none with
        | none => rw [h1, h2] at hs; simp at hs
        | some p2 =>
          rw [h1, h2] at hs
          simp only [Option.map_some', Option.some.injEq] at hs
          simp only [blocksGo, hpop, if_false, h1, h2]
          rw [hs]
          exact ih p2.1 p1.2 p2.2 _

/-- The tensor returned by the block loop plus final layer does not depend
on the incoming file-store state. -/
theorem runBlocksAndFinish_fst_congr (m : Model) (ext : ExtEnv) (c : Tensor2)
    (textStates : Tensor3) (freqsCisImg : Rope) (xemb : Tensor3)
    (fs1 fs2 : FS) (th tw : ℕ) :
    (runBlocksAndFinish m ext c textStates freqsCisImg xemb fs1 th tw).map Prod.fst =
    (runBlocksAndFinish m ext c textStates freqsCisImg xemb fs2 th tw).map Prod.fst := by
  have hstep : ∀ (l : ℕ) (a : Tensor3) (k : Option Tensor3) (s1 s2 : FS),
      (((fun layer xx fss skOpt => (m.blocks.get? layer).bind
        (fun b => blockForward ext b xx c textStates freqsCisImg skOpt fss)) :
          ℕ → Tensor3 → FS → Option Tensor3 → Option (Tensor3 × FS)) l a s1 k).map Prod.fst =
      (((fun layer xx fss skOpt => (m.blocks.get? layer).bind
        (fun b => blockForward ext b xx c textStates freqsCisImg skOpt fss)) :
          ℕ → Tensor3 → FS → Option Tensor3 → Option (Tensor3 × FS)) l a s2 k).map Prod.fst := by
    intro l a k s1 s2
    dsimp only
    cases hb : m.blocks.get? l with
    | none => rfl
    | some b =>
      simp only [Option.some_bind]
      rw [blockForward_fst, blockForward_fst]
  have h := blocksGo_fs_congr m.depth _ _ hstep (List.range m.blocks.length) xemb fs1 fs2 []
  dsimp only [runBlocksAndFinish]
  cases hg1 : blocksGo m.depth
      (fun layer xx fss skOpt => (m.blocks.get? layer).bind
        (fun b => blockForward ext b xx c textStates freqsCisImg skOpt fss))
      (List.range m.blocks.length) xemb fs1 [] with
  | none =>
    cases hg2 : blocksGo m.depth
        (fun layer xx fss skOpt => (m.blocks.get? layer).bind
          (fun b => blockForward ext b xx c textStates freqsCisImg skOpt fss))
        (List.range m.blocks.length) xemb fs2 [] with
    | none => rfl
    | some r2 => rw [hg1, hg2] at h; simp at h
  | some r1 =>
    cases hg2 : blocksGo m.depth
        (fun layer xx fss skOpt => (m.blocks.get? layer).bind
          (fun b => blockForward ext b xx c textStates freqsCisImg skOpt fss))
        (List.range m.blocks.length) xemb fs2 [] with
    | none => rw [hg1, hg2] at h; simp at h
    | some r2 =>
      rw [hg1, hg2] at h
      obtain ⟨xo1, fso1, sk1⟩ := r1
      obtain ⟨xo2, fso2, sk2⟩ := r2
      simp only [Option.map_some', Option.some.injEq, Prod.mk.injEq] at h
      obtain ⟨hx, -⟩ := h
      subst hx
      simp only [bind, Option.bind]
      cases unpatchify m.unpatchifyChannels m.patchSize
          (FinalLayer.fwd ext m.finalLayer xo1 c) th tw with
      | none => rfl
      | some img => rfl

/-- The tensor returned by the `forward_raw` body depends neither on the
unused `y` parameter nor on the incoming file-store state. -/
theorem forwardRawCore_fst_congr (m : Model) (ext : ExtEnv) (x : Tensor4) (t : Tensor1)
    (y1 y2 : Tensor2) (fs1 fs2 : FS) (c1 : Tensor3) (c2 : Tensor2) (c3 : Tensor3)
    (c4 : Tensor2) (c5 : Tensor3) (c6 : Tensor2) (c7 : Tensor3) (c8 : Tensor2) :
    (HunYuan.forwardRawCore m ext fs1 x t y1 c1 c2 c3 c4 c5 c6 c7 c8).map Prod.fst =
    (HunYuan.forwardRawCore m ext fs2 x t y2 c1 c2 c3 c4 c5 c6 c7 c8).map Prod.fst := by
  dsimp only [HunYuan.forwardRawCore]
  exact runBlocksAndFinish_fst_congr m ext _ _ _ _ _ _ _ _

/-- The four debug writes of `forward` land on `.txt` paths, so lookups of
the eight `.pt` embedding paths see through them. -/
theorem fsLookup_through_txt_writes (fs : FS) (ext : ExtEnv) (v1 v2 v3 v4 : File)
    {p : String} (hp : p ∈ ptPaths ext) :
    fsLookup (fsWrite (fsWrite (fsWrite (fsWrite fs (ext.dir ++ "/x.txt") v1)
        (ext.dir ++ "/context.txt") v2) (ext.dir ++ "/y.txt") v3)
        (ext.dir ++ "/kwargs.txt") v4) p = fsLookup fs p := by
  simp only [ptPaths, List.mem_cons, List.not_mem_nil, or_false] at hp
  rcases hp with rfl | rfl | rfl | rfl | rfl | rfl | rfl | rfl <;>
    rw [fsLookup_write_ne _ _ (path_ne_of_tail_ne _ (by decide)),
        fsLookup_write_ne _ _ (path_ne_of_tail_ne _ (by decide)),
        fsLookup_write_ne _ _ (path_ne_of_tail_ne _ (by decide)),
        fsLookup_write_ne _ _ (path_ne_of_tail_ne _ (by decide))]

/-- The tensor returned by `forward_raw` depends on the file store only
through the eight embedding files, and not on `y` at all. -/
theorem forwardRaw_fst_congr (m : Model) (ext : ExtEnv) (x : Tensor4) (t : Tensor1)
    (y1 y2 : Tensor2) (fs1 fs2 : FS)
    (h : ∀ p ∈ ptPaths ext, fsLookup fs1 p = fsLookup fs2 p) :
    (HunYuan.forwardRaw m ext fs1 x t y1).map Prod.fst =
    (HunYuan.forwardRaw m ext fs2 x t y2).map Prod.fst := by
  have e1 : fsLoad3 fs1 (ext.dir ++ "/clip_prompt_embeds.pt")
      = fsLoad3 fs2 (ext.dir ++ "/clip_prompt_embeds.pt") := by
    unfold fsLoad3; rw [h _ (by simp [ptPaths])]
  have e2 : fsLoad2 fs1 (ext.dir ++ "/clip_attention_mask.pt")
      = fsLoad2 fs2 (ext.dir ++ "/clip_attention_mask.pt") := by
    unfold fsLoad2; rw [h _ (by simp [ptPaths])]
  have e3 : fsLoad3 fs1 (ext.dir ++ "/clip_negative_prompt_embeds.pt")
      = fsLoad3 fs2 (ext.dir ++ "/clip_negative_prompt_embeds.pt") := by
    unfold fsLoad3; rw [h _ (by simp [ptPaths])]
  have e4 : fsLoad2 fs1 (ext.dir ++ "/clip_negative_attention_mask.pt")
      = fsLoad2 fs2 (ext.dir ++ "/clip_negative_attention_mask.pt") := by
    unfold fsLoad2; rw [h _ (by simp [ptPaths])]
  have e5 : fsLoad3 fs1 (ext.dir ++ "/mt5_prompt_embeds.pt")
      = fsLoad3 fs2 (ext.dir ++ "/mt5_prompt_embeds.pt") := by
    unfold fsLoad3; rw [h _ (by simp [ptPaths])]
  have e6 : fsLoad2 fs1 (ext.dir ++ "/mt5_attention_mask.pt")
      = fsLoad2 fs2 (ext.dir ++ "/mt5_attention_mask.pt") := by
    unfold fsLoad2; rw [h _ (by simp [ptPaths])]
  have e7 : fsLoad3 fs1 (ext.dir ++ "/mt5_negative_prompt_embeds.pt")
      = fsLoad3 fs2 (ext.dir ++ "/mt5_negative_prompt_embeds.pt") := by
    unfold fsLoad3; rw [h _ (by simp [ptPaths])]
  have e8 : fsLoad2 fs1 (ext.dir ++ "/mt5_negative_attention_mask.pt")
      = fsLoad2 fs2 (ext.dir ++ "/mt5_negative_attention_mask.pt") := by
    unfold fsLoad2; rw [h _ (by simp [ptPaths])]
  dsimp only [HunYuan.forwardRaw]
  rw [e1, e2, e3, e4, e5, e6, e7, e8]
  cases fsLoad3 fs2 (ext.dir ++ "/clip_prompt_embeds.pt") with
  | none => rfl
  | some a1 =>
  cases fsLoad2 fs2 (ext.dir ++ "/clip_attention_mask.pt") with
  | none => rfl
  | some a2 =>
  cases fsLoad3 fs2 (ext.dir ++ "/clip_negative_prompt_embeds.pt") with
  | none => rfl
  | some a3 =>
  cases fsLoad2 fs2 (ext.dir ++ "/clip_negative_attention_mask.pt") with
  | none => rfl
  | some a4 =>
  cases fsLoad3 fs2 (ext.dir ++ "/mt5_prompt_embeds.pt") with
  | none => rfl
  | some a5 =>
  cases fsLoad2 fs2 (ext.dir ++ "/mt5_attention_mask.pt") with
  | none => rfl
  | some a6 =>
  cases fsLoad3 fs2 (ext.dir ++ "/mt5_negative_prompt_embeds.pt") with
  | none => rfl
  | some a7 =>
  cases fsLoad2 fs2 (ext.dir ++ "/mt5_negative_attention_mask.pt") with
  | none => rfl
  | some a8 =>
  exact forwardRawCore_fst_congr m ext x t y1 y2 fs1 fs2 a1 a2 a3 a4 a5 a6 a7 a8

/-- Channel/batch slicing of an optional result preserves equality of the
returned tensors. -/
theorem slice_match_fst (b k : ℕ) (o1 o2 : Option (Tensor4 × FS)) :
    o1.map Prod.fst = o2.map Prod.fst →
    ((match o1 with
      | none => none
      | some (out, fsOut) => some (batchSlice b (chanSlice k out), fsOut) :
        Option (Tensor4 × FS)).map Prod.fst) =
    ((match o2 with
      | none => none
      | some (out, fsOut) => some (batchSlice b (chanSlice k out), fsOut) :
        Option (Tensor4 × FS)).map Prod.fst) := by
  intro h
  cases o1 with
  | none =>
    cases o2 with
    | none => rfl
    | some p => simp at h
  | some p1 =>
    cases o2 with
    | none => simp at h
    | some p2 =>
      obtain ⟨out1, f1⟩ := p1
      obtain ⟨out2, f2⟩ := p2
      simp only [Option.map_some', Option.some.injEq] at h ⊢
      rw [h]

/-- C3: two `forward` invocations with identical `x`, `timesteps`, model
parameters and on-disk embedding files, but arbitrary different `context`
and `y` arguments, return equal tensors: `forward_raw` overwrites
`encoder_hidden_states`, `encoder_hidden_states_t5` and both masks with
tensors loaded from the fixed file paths and never reads its `y`
parameter, and the debug writes that do depend on `context`/`y` land on
`.txt` paths disjoint from the eight `.pt` embedding paths. -/
theorem forward_ignores_context (m : Model) (ext : ExtEnv) (fs : FS) (x : Tensor4)
    (timesteps : Tensor1) (context1 context2 : Tensor3) (y1 y2 : Option Tensor3) :
    (HunYuan.forward m ext fs x timesteps context1 y1).map Prod.fst =
    (HunYuan.forward m ext fs x timesteps context2 y2).map Prod.fst := by
  have hcongr := forwardRaw_fst_congr m ext x timesteps
    (toIntT2 (col0 context1)) (toIntT2 (col0 context2))
    (fsWrite (fsWrite (fsWrite (fsWrite fs (ext.dir ++ "/x.txt") (File.t4 x))
      (ext.dir ++ "/context.txt") (File.t3 context1)) (ext.dir ++ "/y.txt")
      (match y1 with | some ty => File.t3 ty | none => File.txt "None"))
      (ext.dir ++ "/kwargs.txt") (File.txt "kwargs"))
    (fsWrite (fsWrite (fsWrite (fsWrite fs (ext.dir ++ "/x.txt") (File.t4 x))
      (ext.dir ++ "/context.txt") (File.t3 context2)) (ext.dir ++ "/y.txt")
      (match y2 with | some ty => File.t3 ty | none => File.txt "None"))
      (ext.dir ++ "/kwargs.txt") (File.txt "kwargs"))
    (by
      intro p hp
      rw [fsLookup_through_txt_writes fs ext _ _ _ _ hp,
          fsLookup_through_txt_writes fs ext _ _ _ _ hp])
  dsimp only [HunYuan.forward]
  exact slice_match_fst x.n m.inChannels _ _ hcongr

/-- The `match` in `forward` is exactly a `map` of the channel/batch
slicing over the `forward_raw` result. -/
theorem slice_match_map (b k : ℕ) (o : Option (Tensor4 × FS)) :
    ((match o with
      | none => none
      | some (out, fsOut) => some (batchSlice b (chanSlice k out), fsOut) :
        Option (Tensor4 × FS))) =
    o.map (fun p => (batchSlice b (chanSlice k p.1), p.2)) := by
  cases o with
  | none => rfl
  | some p => obtain ⟨out, fsOut⟩ := p; rfl

theorem mlpT5Apply_embedder_update (m : Model) (f : Tensor1 → Tensor2)
    (g : Tensor4 → Tensor3) (ext : ExtEnv) (v : Tensor2) :
    mlpT5Apply { m with tEmbedder := f, xEmbedder := g } ext v = mlpT5Apply m ext v := rfl

theorem extraEmbApply_embedder_update (m : Model) (f : Tensor1 → Tensor2)
    (g : Tensor4 → Tensor3) (ext : ExtEnv) (v : Tensor2) :
    extraEmbApply { m with tEmbedder := f, xEmbedder := g } ext v = extraEmbApply m ext v := rfl

theorem ropeFromTable_embedder_update (m : Model) (f : Tensor1 → Tensor2)
    (g : Tensor4 → Tensor3) (th tw : ℕ) :
    ropeFromTable { m with tEmbedder := f, xEmbedder := g } th tw
      = ropeFromTable m th tw := rfl

/-- C6: `forward` returns the `forward_raw` output restricted to its first
`in_channels` channels and truncated to the first `B = x.shape[0]` batch
rows (the learn-variance channels and the doubled batch half are dropped);
and inside `forward_raw` the timestep and image tensors are embedded only
after the batch doubling `t.repeat(2)` / `x.repeat(2,1,1,1)`: the result
depends on the embedder modules only through their values on the doubled
tensors. -/
theorem forward_doubles_and_slices (m : Model) (ext : ExtEnv) (fs : FS)
    (x : Tensor4) (timesteps : Tensor1) (context : Tensor3) (y : Option Tensor3) :
    (HunYuan.forward m ext fs x timesteps context y =
      (HunYuan.forwardRaw m ext
        (fsWrite (fsWrite (fsWrite (fsWrite fs (ext.dir ++ "/x.txt") (File.t4 x))
          (ext.dir ++ "/context.txt") (File.t3 context)) (ext.dir ++ "/y.txt")
          (match y with | some ty => File.t3 ty | none => File.txt "None"))
          (ext.dir ++ "/kwargs.txt") (File.txt "kwargs"))
        x timesteps (toIntT2 (col0 context))).map
        (fun p => (batchSlice x.n (chanSlice m.inChannels p.1), p.2)))
    ∧ (∀ (f1 f2 : Tensor1 → Tensor2) (g1 g2 : Tensor4 → Tensor3) (yr : Tensor2),
        f1 (rep1 2 timesteps) = f2 (rep1 2 timesteps) →
        g1 (rep4 2 x) = g2 (rep4 2 x) →
        HunYuan.forwardRaw { m with tEmbedder := f1, xEmbedder := g1 } ext fs x timesteps yr =
        HunYuan.forwardRaw { m with tEmbedder := f2, xEmbedder := g2 } ext fs x timesteps yr) := by
  constructor
  · dsimp only [HunYuan.forward]
    exact slice_match_map x.n m.inChannels _
  · intro f1 f2 g1 g2 yr h1 h2
    dsimp only [HunYuan.forwardRaw, HunYuan.forwardRawCore, runBlocksAndFinish]
    rw [h1, h2]
    simp only [mlpT5Apply_embedder_update, extraEmbApply_embedder_update,
      ropeFromTable_embedder_update]

/-- A concrete rank-1 tensor for witnesses. -/
def exT1v : Tensor1 := ⟨1, fun _ => 0⟩

/-- A concrete rank-2 tensor for witnesses. -/
def exT2v : Tensor2 := ⟨1, 1, fun _ _ => 0⟩

/-- A concrete rank-3 tensor for witnesses. -/
def exT3v : Tensor3 := ⟨1, 1, 1, fun _ _ _ => 0⟩

/-- A concrete rank-4 tensor for witnesses. -/
def exT4v : Tensor4 := ⟨1, 1, 1, 1, fun _ _ _ _ => 0⟩

/-- A concrete final layer for witnesses. -/
def exFinalLayer : FinalLayer := ⟨fun v => v, exLinear, exLinear⟩

/-- A concrete model instance for witnesses. -/
def exModel : Model :=
  { depth := 2, patchSize := 2, inChannels := 4, unpatchifyChannels := 8,
    headSize := 8, mlpT5a := exLinear, mlpT5b := exLinear,
    textEmbeddingPadding := exT2v, pooler := fun _ => exT2v,
    styleEmbedder := fun _ => exT2v, xEmbedder := fun _ => exT3v,
    tEmbedder := fun _ => exT2v, extraA := exLinear, extraB := exLinear,
    blocks := [], finalLayer := exFinalLayer,
    getFillResizeAndCrop := fun _ _ => ((0, 0), (0, 0)),
    get2dRotaryPosEmbed := fun _ _ _ => (exT2v, exT2v) }

/-- A concrete external-kernel environment for witnesses. -/
def exExtEnv : ExtEnv := ⟨"out", fun q => q, fun _ _ => exT2v⟩

theorem forward_doubles_and_slices_witness :
    HunYuan.forwardRaw
        { exModel with tEmbedder := fun _ => exT2v, xEmbedder := fun _ => exT3v }
        exExtEnv [] exT4v exT1v exT2v =
      HunYuan.forwardRaw
        { exModel with tEmbedder := fun _ => exT2v, xEmbedder := fun _ => exT3v }
        exExtEnv [] exT4v exT1v exT2v :=
  (forward_doubles_and_slices exModel exExtEnv [] exT4v exT1v exT3v none).2
    (fun _ => exT2v) (fun _ => exT2v) (fun _ => exT3v) (fun _ => exT3v)
    exT2v rfl rfl
